import Mathlib

/-!
# Verification of the LLVIP conditional consistency-model training script

Shallow embedding of `src/llvip/script.py` (Conditional-Consistency-Models).
Pure data manipulations are translated as Lean functions; stateful training
code becomes explicit state passing; Python exceptions become explicit error
constructors.  File names are abstracted to natural-number identifiers with
their usual linear order (Python sorts directory listings by string order; any
linear order carries the same content).  Tensor values are rationals.

Parts of the repository imported by the script but not present under `src/`
(the `improved_consistency_model_conditional` library: the sampler, the EMA
updater, the training objective and the pseudo-Huber loss) are modelled from
the spec where a claim needs them; each such definition says so in its doc
comment.
-/

/-! ## Images and directories (PIL / os.listdir model)

`PairedDataset.__init__` stores `sorted(os.listdir(dir))` for both
directories; `__getitem__` opens the files at a given index.  A directory is
a list of (name, image) entries with distinct names; `Image.open` on a listed
name returns that entry's image.  We fuse listing-then-opening into sorting
the entries by name, which is observationally the same when names are
distinct. -/

/-- A decoded image: spatial size (width, height) as reported by PIL's
`Image.size`, and an abstract pixel payload. -/
structure PILImage where
  size : ℕ × ℕ
  data : ℕ
  deriving DecidableEq, Repr

/-- A directory on disk: finitely many named image files. -/
structure ImageDir where
  entries : List (ℕ × PILImage)
  deriving DecidableEq, Repr

/-- Insertion step for sorting directory entries by file name
(`sorted(os.listdir(...))`). -/
def insertEntry (a : ℕ × PILImage) : List (ℕ × PILImage) → List (ℕ × PILImage)
  | [] => [a]
  | b :: bs => if a.1 ≤ b.1 then a :: b :: bs else b :: insertEntry a bs

/-- Sort a directory's entries by file name: the fused model of
`sorted(os.listdir(dir))` followed by `Image.open` of each name. -/
def sortedEntries (d : ImageDir) : List (ℕ × PILImage) :=
  d.entries.foldr insertEntry []

/-- `PairedDataset` as constructed in `script.py`: it keeps the two sorted
listings (here, the sorted entries).  The transform, crop size and resize
size do not affect the claims under study and are elided. -/
structure PairedDataset where
  visibleImages : List (ℕ × PILImage)
  infraredImages : List (ℕ × PILImage)
  deriving DecidableEq, Repr

/-- `PairedDataset.__init__(visible_dir, infrared_dir, ...)`. -/
def PairedDataset.ofDirs (visibleDir infraredDir : ImageDir) : PairedDataset :=
  { visibleImages := sortedEntries visibleDir
  , infraredImages := sortedEntries infraredDir }

/-- `PairedDataset.__len__`: the number of files in the visible directory
only. -/
def PairedDataset.len (d : PairedDataset) : ℕ :=
  d.visibleImages.length

/-- Result of `PairedDataset.__getitem__(index)`:
  * `indexError` — a Python `IndexError` escaped (list index out of range);
  * `skippedNone` — the sizes mismatched, a warning was printed and `None`
    was returned;
  * `pair v ir` — the (visible, infrared) images were returned (the
    synchronized flip/crop/resize and normalization act on both images of the
    pair and are elided; the claims under study concern which pair is
    returned, not its augmentation). -/
inductive GetItemResult where
  | indexError
  | skippedNone
  | pair (vis ir : PILImage)
  deriving DecidableEq, Repr

/-- `PairedDataset.__getitem__`: index both sorted listings (either lookup
out of range raises `IndexError`), open both images, return `None` when the
PIL sizes differ, otherwise return the pair. -/
def PairedDataset.getitem (d : PairedDataset) (index : ℕ) : GetItemResult :=
  match d.visibleImages.get? index, d.infraredImages.get? index with
  | some v, some ir =>
      if v.2.size ≠ ir.2.size then .skippedNone else .pair v.2 ir.2
  | _, _ => .indexError

/-! ## DataLoader batching (`LLVIPDataModule.train_dataloader`)

`train_dataloader` builds `DataLoader(self.dataset, batch_size=...,
shuffle=True, num_workers=..., pin_memory=..., persistent_workers=...)`
with NO `collate_fn` argument, so torch's default collate assembles each
batch.  Default collate stacks the per-index returns; a `None` element has no
tensor structure and raises a `TypeError` (torch: "default_collate: batch
must contain tensors, ... found <class 'NoneType'>").  An `IndexError` from
`__getitem__` propagates out of the loader. -/

/-- Outcome of fetching one batch from the train dataloader. -/
inductive BatchResult where
  | indexError
  | collateTypeError
  | batch (pairs : List (PILImage × PILImage))
  deriving DecidableEq, Repr

/-- The loader's fetch loop: `__getitem__` for each requested index, in
order; the first `IndexError` aborts the fetch.  A successful fetch yields
the raw per-index returns, `None` (`none`) included. -/
def fetchItems (d : PairedDataset) : List ℕ → Option (List (Option (PILImage × PILImage)))
  | [] => some []
  | i :: is =>
      match d.getitem i with
      | .indexError => none
      | .skippedNone => (fetchItems d is).map (fun rest => none :: rest)
      | .pair v ir => (fetchItems d is).map (fun rest => some (v, ir) :: rest)

/-- Torch default collate over the raw per-index returns: a `None` element
raises `TypeError`, otherwise the pairs are stacked. -/
def defaultCollate : List (Option (PILImage × PILImage)) → BatchResult
  | [] => .batch []
  | none :: _ => .collateTypeError
  | some p :: rest =>
      match defaultCollate rest with
      | .batch ps => .batch (p :: ps)
      | e => e

/-- One batch of `LLVIPDataModule.train_dataloader()` at a given index list
(the sampler's shuffle decides the indices): fetch each item, then collate
with torch's default collate, since `train_dataloader` passes no
`collate_fn`. -/
def trainDataloaderBatch (d : PairedDataset) (indices : List ℕ) : BatchResult :=
  match fetchItems d indices with
  | none => .indexError
  | some items => defaultCollate items

/-! ## UNet configuration and architecture (`UNetConfig`, `UNet.__init__`)

The U-Net's claims concern channel bookkeeping (concatenation widths,
projection widths) and checkpointing, so modules are embedded as descriptors
carrying their declared channel widths, in the exact construction order of
`UNet.__init__`.  Float hyperparameters (dropout, noise-level scale) are kept
as rationals; they do not influence channel flow but belong to the persisted
configuration. -/

/-- The `UNetConfig` dataclass, field for field (tuples become lists). -/
structure UNetConfig where
  channels : ℕ := 3
  noise_level_channels : ℕ := 256
  noise_level_scale : ℚ := 2 / 100
  n_heads : ℕ := 8
  top_blocks_channels : List ℕ := [128, 128]
  top_blocks_n_blocks_per_resolution : List ℕ := [2, 2]
  top_blocks_has_resampling : List Bool := [true, true]
  top_blocks_dropout : List ℚ := [0, 0]
  mid_blocks_channels : List ℕ := [256, 512]
  mid_blocks_n_blocks_per_resolution : List ℕ := [4, 4]
  mid_blocks_has_resampling : List Bool := [true, false]
  mid_blocks_dropout : List ℚ := [0, 3 / 10]
  deriving DecidableEq, Repr

/-- `UNetConfig()` with every default. -/
def defaultUNetConfig : UNetConfig := {}

/-- Descriptor of one registered submodule of the encoder/decoder lists:
`UNetBlock(in, out, ...)`, `UNetBlockWithSelfAttention(in, out, ...)`,
`Downsample(c)` or `Upsample(c)`, keeping the declared channel widths. -/
inductive BlockDesc where
  | unetBlock (in_channels out_channels : ℕ)
  | unetAttnBlock (in_channels out_channels : ℕ)
  | downsample (channels : ℕ)
  | upsample (channels : ℕ)
  deriving DecidableEq, Repr

/-- `list(zip(channels[:-1], channels[1:]))`. -/
def channelPairs (channels : List ℕ) : List (ℕ × ℕ) :=
  channels.dropLast.zip channels.tail

/-- `channels[-1:]`. -/
def lastSlice (channels : List ℕ) : List ℕ :=
  channels.drop (channels.length - 1)

/-- The inner loop of `_make_encoder_blocks`: `n` blocks, the first from
`in_channels` to `out_channels`, then `in_channels = out_channels`. -/
def encoderGroup (mk : ℕ → ℕ → BlockDesc) (in_channels out_channels : ℕ) : ℕ → List BlockDesc
  | 0 => []
  | n + 1 => mk in_channels out_channels :: encoderGroup mk out_channels out_channels n

/-- `UNet._make_encoder_blocks`: per channel pair, `n_blocks_per_resolution`
blocks then an optional `Downsample(out_channels)`. -/
def makeEncoderBlocks (mk : ℕ → ℕ → BlockDesc) :
    List (ℕ × ℕ) → List ℕ → List Bool → List BlockDesc
  | (i, o) :: ps, n :: ns, h :: hs =>
      encoderGroup mk i o n ++ (if h then [.downsample o] else [])
        ++ makeEncoderBlocks mk ps ns hs
  | _, _, _ => []

/-- The inner loop of `_make_decoder_blocks` before its final reversal:
each block reads `in_channels * 2` (skip concatenation); the first written
descriptor targets the group's `out_channels`, the rest target
`in_channels`. -/
def decoderGroup (mk : ℕ → ℕ → BlockDesc) (in_channels out_channels : ℕ) : ℕ → List BlockDesc
  | 0 => []
  | n + 1 => mk (in_channels * 2) out_channels :: decoderGroup mk in_channels in_channels n

/-- `UNet._make_decoder_blocks`, consuming the REVERSED channel pairs (with
components read as `(out_channels, in_channels)`), the reversed block counts
and the reversed resampling flags: optional `Upsample(in_channels)`, then the
group's blocks in reversed construction order. -/
def makeDecoderBlocks (mk : ℕ → ℕ → BlockDesc) :
    List (ℕ × ℕ) → List ℕ → List Bool → List BlockDesc
  | (o, i) :: ps, n :: ns, h :: hs =>
      (if h then [.upsample i] else []) ++ (decoderGroup mk i o n).reverse
        ++ makeDecoderBlocks mk ps ns hs
  | _, _, _ => []

/-- The four block lists and the two projections registered by
`UNet.__init__`, in registration order. -/
structure UNetArch where
  input_projection_in_channels : ℕ
  input_projection_out_channels : ℕ
  top_encoder_blocks : List BlockDesc
  mid_encoder_blocks : List BlockDesc
  mid_decoder_blocks : List BlockDesc
  top_decoder_blocks : List BlockDesc
  output_projection_in_channels : ℕ
  output_projection_out_channels : ℕ
  deriving DecidableEq, Repr

/-- `UNet.__init__(config)`: the architecture determined by the
configuration.  `input_projection = Conv2d(config.channels * 2,
config.top_blocks_channels[0], ...)`; encoders/decoders from the channel
lists exactly as in the source; `output_projection =
Conv2d(config.top_blocks_channels[0], config.channels, ...)`. -/
def mkUNetArch (config : UNetConfig) : UNetArch :=
  let topChannels := config.top_blocks_channels ++ config.mid_blocks_channels.take 1
  let midChannels := config.mid_blocks_channels ++ lastSlice config.mid_blocks_channels
  { input_projection_in_channels := config.channels * 2
  , input_projection_out_channels := config.top_blocks_channels.headD 0
  , top_encoder_blocks :=
      makeEncoderBlocks .unetBlock (channelPairs topChannels)
        config.top_blocks_n_blocks_per_resolution config.top_blocks_has_resampling
  , mid_encoder_blocks :=
      makeEncoderBlocks .unetAttnBlock (channelPairs midChannels)
        config.mid_blocks_n_blocks_per_resolution config.mid_blocks_has_resampling
  , mid_decoder_blocks :=
      makeDecoderBlocks .unetAttnBlock (channelPairs midChannels).reverse
        config.mid_blocks_n_blocks_per_resolution.reverse
        config.mid_blocks_has_resampling.reverse
  , top_decoder_blocks :=
      makeDecoderBlocks .unetBlock (channelPairs topChannels).reverse
        config.top_blocks_n_blocks_per_resolution.reverse
        config.top_blocks_has_resampling.reverse
  , output_projection_in_channels := config.top_blocks_channels.headD 0
  , output_projection_out_channels := config.channels }

/-! ## `UNet.forward` channel flow

`forward(x, noise_level, v)` concatenates `x` and `v` on the channel axis,
projects, traverses the four block lists with `isinstance` dispatch
(conditioned blocks also push/pop skip embeddings; anything else is applied
as a plain resampling), and projects back.  We track the channel width of
`h` and the channel widths of the two skip stacks: a `none` result means the
pass would fail (a convolution fed the wrong width, a block applied with the
wrong arity, or a pop from an empty embedding list). -/

/-- Applying a block through the `else` branch of forward (`h = block(h)`):
well-typed only for `Downsample`/`Upsample`, whose 1×1/3×3 convolution
requires its declared width; conditioned blocks need the `noise_level`
argument and fail. -/
def applyResampleChannels : BlockDesc → ℕ → Option ℕ
  | .downsample c, h => if c = h then some c else none
  | .upsample c, h => if c = h then some c else none
  | _, _ => none

/-- Top encoder traversal: `UNetBlock`s are conditioned and append their
output to the skip list; everything else goes through the `else` branch. -/
def runTopEncoder : List BlockDesc → ℕ → List ℕ → Option (ℕ × List ℕ)
  | [], h, st => some (h, st)
  | .unetBlock i o :: bs, h, st =>
      if i = h then runTopEncoder bs o (o :: st) else none
  | b :: bs, h, st =>
      match applyResampleChannels b h with
      | some h2 => runTopEncoder bs h2 st
      | none => none

/-- Mid encoder traversal: `UNetBlockWithSelfAttention`s are conditioned and
append their output to the skip list; everything else goes through the
`else` branch. -/
def runMidEncoder : List BlockDesc → ℕ → List ℕ → Option (ℕ × List ℕ)
  | [], h, st => some (h, st)
  | .unetAttnBlock i o :: bs, h, st =>
      if i = h then runMidEncoder bs o (o :: st) else none
  | b :: bs, h, st =>
      match applyResampleChannels b h with
      | some h2 => runMidEncoder bs h2 st
      | none => none

/-- Mid decoder traversal: each `UNetBlockWithSelfAttention` first
concatenates the most recent mid skip embedding onto `h` (popping it), then
runs conditioned; everything else goes through the `else` branch. -/
def runMidDecoder : List BlockDesc → ℕ → List ℕ → Option (ℕ × List ℕ)
  | [], h, st => some (h, st)
  | .unetAttnBlock i o :: bs, h, st =>
      match st with
      | [] => none
      | e :: st2 => if i = h + e then runMidDecoder bs o st2 else none
  | b :: bs, h, st =>
      match applyResampleChannels b h with
      | some h2 => runMidDecoder bs h2 st
      | none => none

/-- Top decoder traversal: each `UNetBlock` first concatenates the most
recent top skip embedding onto `h` (popping it), then runs conditioned;
everything else goes through the `else` branch. -/
def runTopDecoder : List BlockDesc → ℕ → List ℕ → Option (ℕ × List ℕ)
  | [], h, st => some (h, st)
  | .unetBlock i o :: bs, h, st =>
      match st with
      | [] => none
      | e :: st2 => if i = h + e then runTopDecoder bs o st2 else none
  | b :: bs, h, st =>
      match applyResampleChannels b h with
      | some h2 => runTopDecoder bs h2 st
      | none => none

/-- `UNet.forward` at the channel level: `x = torch.cat([x, v], dim=1)` (so
the input projection is fed `xChannels + vChannels` channels and requires its
declared width `config.channels * 2`), then the four traversals, then the
output projection (requiring width `top_blocks_channels[0]` and emitting
`config.channels`). -/
def unetForwardChannels (arch : UNetArch) (xChannels vChannels : ℕ) : Option ℕ :=
  let catChannels := xChannels + vChannels
  if arch.input_projection_in_channels = catChannels then
    (runTopEncoder arch.top_encoder_blocks arch.input_projection_out_channels []).bind
      fun (h1, topSkips) =>
    (runMidEncoder arch.mid_encoder_blocks h1 []).bind fun (h2, midSkips) =>
    (runMidDecoder arch.mid_decoder_blocks h2 midSkips).bind fun (h3, _) =>
    (runTopDecoder arch.top_decoder_blocks h3 topSkips).bind fun (h4, _) =>
    if arch.output_projection_in_channels = h4
      then some arch.output_projection_out_channels
      else none
  else none

/-! ## Parameters, state dict and checkpointing

`save_pretrained` writes `config.json` (the dataclass as a flat record;
`json.dump`/`json.load` round-trip every field, tuples becoming lists — the
embedding already uses lists) and `model.pt` (`torch.save(state_dict)`,
value-faithful).  `from_pretrained` reads the config, builds `cls(config)`
and then `load_state_dict` (strict): the stored tensors are copied into the
freshly constructed parameters, and any disagreement in the parameter
inventory or in a parameter's shape raises.  A state dict is ordered (torch
registration order); with the inventory fixed by the architecture,
name-keyed matching coincides with positional matching, so parameters are
kept positionally in registration order. -/

/-- A tensor's shape. -/
abbrev Shape := List ℕ

/-- One saved/loaded tensor: its shape and flattened values. -/
structure TensorData where
  shape : Shape
  value : List ℚ
  deriving DecidableEq, Repr

/-- Parameter shapes of `GroupNorm(c)`: weight and bias. -/
def groupNormShapes (c : ℕ) : List Shape := [[c], [c]]

/-- Parameter shapes of `Conv2d(i, o, kernel_size=k)`, with or without
bias. -/
def conv2dShapes (o i k : ℕ) (bias : Bool) : List Shape :=
  [o, i, k, k] :: (if bias then [[o]] else [])

/-- Parameter shapes of `Linear(i, o)`, with or without bias. -/
def linearShapes (o i : ℕ) (bias : Bool) : List Shape :=
  [o, i] :: (if bias then [[o]] else [])

/-- Parameter shapes of `UNetBlock(i, o, nlc, ...)` in registration order:
input projection (GroupNorm, 3×3 conv), noise-level projection (1×1 conv),
output projection (GroupNorm, 3×3 conv), residual projection (1×1 conv). -/
def unetBlockShapes (i o nlc : ℕ) : List Shape :=
  groupNormShapes i ++ conv2dShapes o i 3 true
    ++ conv2dShapes o nlc 1 true
    ++ groupNormShapes o ++ conv2dShapes o o 3 true
    ++ conv2dShapes o i 1 true

/-- Parameter shapes of `SelfAttention(i, o, ...)`: qkv projection
(GroupNorm, bias-free 1×1 conv to 3i), output projection (bias-free linear,
GroupNorm), residual projection (1×1 conv). -/
def selfAttentionShapes (i o : ℕ) : List Shape :=
  groupNormShapes i ++ conv2dShapes (3 * i) i 1 false
    ++ linearShapes o i false ++ groupNormShapes o
    ++ conv2dShapes o i 1 true

/-- Parameter shapes of one block descriptor.  An attention block is a
`UNetBlock` followed by a `SelfAttention(o, o)`; `Downsample(c)` holds a 1×1
conv from `4c` to `c`; `Upsample(c)` a 3×3 conv from `c` to `c`. -/
def blockShapesOf (nlc : ℕ) : BlockDesc → List Shape
  | .unetBlock i o => unetBlockShapes i o nlc
  | .unetAttnBlock i o => unetBlockShapes i o nlc ++ selfAttentionShapes o o
  | .downsample c => conv2dShapes c (4 * c) 1 true
  | .upsample c => conv2dShapes c c 3 true

/-- Parameter shapes of `NoiseLevelEmbedding(c, scale)`: the frozen random
projection `W` of size `c // 2`, then Linear(c, 4c) and Linear(4c, c). -/
def noiseLevelEmbeddingShapes (c : ℕ) : List Shape :=
  [c / 2] :: linearShapes (4 * c) c true ++ linearShapes c (4 * c) true

/-- The full parameter-shape inventory of `UNet(config)`, in registration
order: input projection, noise-level embedding, the four block lists, output
projection. -/
def unetParamShapes (config : UNetConfig) : List Shape :=
  let arch := mkUNetArch config
  let nlc := config.noise_level_channels
  conv2dShapes arch.input_projection_out_channels arch.input_projection_in_channels 3 true
    ++ noiseLevelEmbeddingShapes nlc
    ++ (arch.top_encoder_blocks.map (blockShapesOf nlc)).flatten
    ++ (arch.mid_encoder_blocks.map (blockShapesOf nlc)).flatten
    ++ (arch.mid_decoder_blocks.map (blockShapesOf nlc)).flatten
    ++ (arch.top_decoder_blocks.map (blockShapesOf nlc)).flatten
    ++ conv2dShapes arch.output_projection_out_channels arch.output_projection_in_channels 3 true

/-- A `UNet` instance as far as persistence is concerned: its configuration
and its parameters (the state dict, positionally in registration order). -/
structure UNet where
  config : UNetConfig
  state_dict : List TensorData
  deriving DecidableEq, Repr

/-- Freshly initialized parameter for a shape (the concrete random values of
a fresh network never survive `load_state_dict`; zeros stand for them). -/
def initTensor (s : Shape) : TensorData :=
  { shape := s, value := List.replicate s.prod 0 }

/-- `UNet(config)`: a network whose parameter shapes are exactly the
inventory determined by the configuration. -/
def UNet.ofConfig (config : UNetConfig) : UNet :=
  { config := config, state_dict := (unetParamShapes config).map initTensor }

/-- A well-formed network: its parameter shapes are the inventory of its own
configuration (true of `UNet(config)` by construction and preserved by
training, which only rewrites values). -/
def UNet.wf (m : UNet) : Prop :=
  m.state_dict.map TensorData.shape = unetParamShapes m.config

/-- The checkpoint directory written by `save_pretrained`: `config.json`
and `model.pt`. -/
structure Checkpoint where
  configJson : UNetConfig
  modelPt : List TensorData
  deriving DecidableEq, Repr

/-- `UNet.save_pretrained`: dump the config record and the state dict. -/
def UNet.save_pretrained (m : UNet) : Checkpoint :=
  { configJson := m.config, modelPt := m.state_dict }

/-- Failure of a strict `load_state_dict`. -/
inductive LoadError where
  | shapeMismatch
  deriving DecidableEq, Repr

/-- Strict `load_state_dict`: the stored tensors are copied into the model's
parameters; a missing/unexpected parameter or a shape disagreement raises
(`ShapeMismatch`).  Returns the model's new parameters. -/
def loadStateDict : List TensorData → List TensorData → Except LoadError (List TensorData)
  | [], [] => .ok []
  | t :: ts, s :: ss =>
      if t.shape = s.shape then (loadStateDict ts ss).map (s :: ·)
      else .error .shapeMismatch
  | _, _ => .error .shapeMismatch

/-- `UNet.from_pretrained`: read `config.json`, build `cls(config)` — the
architecture comes from the saved configuration alone — then strictly load
`model.pt` into it.  On failure no network is returned. -/
def UNet.from_pretrained (ck : Checkpoint) : Except LoadError UNet :=
  (loadStateDict (UNet.ofConfig ck.configJson).state_dict ck.modelPt).map
    (fun sd => { config := ck.configJson, state_dict := sd })

/-! ## EMA updater and the Lightning training protocol

`LitImprovedConsistencyModel` holds the online `model` and the `ema_model`;
`__init__` freezes every EMA parameter (`requires_grad = False`) and puts the
EMA network in eval mode.  `run_training` builds both networks from the same
config and initializes the EMA copy with `load_state_dict(model.state_dict())`.
Each completed batch, Lightning runs `training_step`, the optimizer update,
then `on_train_batch_end`, which calls `update_ema_model_` and then —
when `(global_step + 1) % sample_every_n_steps == 0` or `global_step == 0` —
the private sampling/logging method. -/

/-- A module parameter at training time: its tensor and its
`requires_grad` flag. -/
structure ModParam where
  data : TensorData
  requires_grad : Bool
  deriving DecidableEq, Repr

/-- Modelled from the spec (§4.4): the library's `update_ema_model_` (not
under `src/`) applies `shadow ← decay * shadow + (1 - decay) * online`
elementwise to every matching parameter pair, in place and without gradient
tracking, so only parameter values of the shadow change. -/
def updateEmaParam (decay : ℚ) (online shadow : TensorData) : TensorData :=
  { shape := shadow.shape
  , value := List.zipWith (fun s o => decay * s + (1 - decay) * o) shadow.value online.value }

/-- Modelled from the spec (§4.4): `update_ema_model_(model, ema_model,
decay)` over whole networks; `requires_grad` flags are untouched by the
in-place value writes. -/
def updateEmaModel (decay : ℚ) (online shadow : List ModParam) : List ModParam :=
  List.zipWith
    (fun o s => { data := updateEmaParam decay o.data s.data, requires_grad := s.requires_grad })
    online shadow

/-- `load_state_dict` at training time (`ema_model.load_state_dict(
model.state_dict())`): copy the source's values into the target's
parameters; the target keeps its own `requires_grad` flags. -/
def copyStateInto (target source : List ModParam) : List ModParam :=
  List.zipWith
    (fun t s => { data := { shape := t.data.shape, value := s.data.value }
                , requires_grad := t.requires_grad })
    target source

/-- `for param in self.ema_model.parameters(): param.requires_grad = False`
(from `LitImprovedConsistencyModel.__init__`). -/
def freezeParams (ps : List ModParam) : List ModParam :=
  ps.map fun p => { p with requires_grad := false }

/-- The two parameter sets held by the Lightning module. -/
structure LitState where
  model : List ModParam
  ema_model : List ModParam
  deriving DecidableEq, Repr

/-- `run_training` up to the creation of the Lightning module:
`model = UNet(config)`, `ema_model = UNet(config)` (arbitrary independent
initializations of the same inventory), `ema_model.load_state_dict(
model.state_dict())`, then `LitImprovedConsistencyModel.__init__` freezes
the EMA parameters. -/
def runTrainingSetup (onlineInit emaInit : List ModParam) : LitState :=
  { model := onlineInit
  , ema_model := freezeParams (copyStateInto emaInit onlineInit) }

/-- One completed training batch: the optimizer applies its update to the
online network (an arbitrary write `opt` to the online parameters), then
`on_train_batch_end` runs `update_ema_model_(self.model, self.ema_model,
decay)`.  The periodic sampling only reads `ema_model` and changes no
parameter. -/
def trainBatch (decay : ℚ) (opt : List ModParam → List ModParam) (s : LitState) : LitState :=
  let afterOpt : LitState := { s with model := opt s.model }
  { afterOpt with ema_model := updateEmaModel decay afterOpt.model afterOpt.ema_model }

/-- `n` completed training batches, the optimizer write of batch `k` being
`opt k`. -/
def trainRun (decay : ℚ) (opt : ℕ → List ModParam → List ModParam) :
    ℕ → LitState → LitState
  | 0, s => s
  | n + 1, s => trainRun decay opt n (trainBatch decay (opt n) s)

/-- The observable events of one completed batch, in order.  The first two
are the trainer's: modelled from the spec (§6 trainer collaborator
contract; the generic trainer is an external collaborator): it invokes
`training_step`, then the optimizer update, then `on_train_batch_end`.  The
rest is `on_train_batch_end` itself: `update_ema_model_`, then — iff
`(global_step + 1) % sample_every_n_steps == 0` or `global_step == 0` — the
sampler invocation reading the shadow network. -/
inductive TrainEvent where
  | trainingStepCall
  | optimizerStep
  | emaUpdate
  | samplerInvocation
  deriving DecidableEq, Repr

/-- Body of `on_train_batch_end` as an event list. -/
def onTrainBatchEndEvents (sample_every_n_steps global_step : ℕ) : List TrainEvent :=
  .emaUpdate ::
    (if (global_step + 1) % sample_every_n_steps = 0 ∨ global_step = 0
      then [.samplerInvocation] else [])

/-- The full per-batch event list (trainer protocol plus hook body). -/
def trainBatchEvents (sample_every_n_steps global_step : ℕ) : List TrainEvent :=
  [.trainingStepCall, .optimizerStep] ++ onTrainBatchEndEvents sample_every_n_steps global_step

/-! ## Monitoring sampler invocations (`__sample_and_log_samples`)

`__sample_and_log_samples(batch)` takes `num_samples = min(config.num_samples,
batch.shape[0])`, draws `noise = torch.randn_like(batch[:num_samples])`, logs
the ground-truth slice `batch[:num_samples]`, and for each configured sigma
sequence calls `self.consistency_sampling(self.ema_model, noise, sigmas,
clip_denoised=True, verbose=True)`.  Note the call passes NO conditioning
image. -/

/-- Which network a sampler call reads. -/
inductive NetworkRef where
  | onlineModel
  | emaModel
  deriving DecidableEq, Repr

/-- One invocation of `self.consistency_sampling(...)`, recording the
arguments supplied at the call site. -/
structure SamplerCall where
  network : NetworkRef
  noiseBatch : ℕ
  sigmas : List ℚ
  conditionImage : Option ℕ
  clip_denoised : Bool
  verbose : Bool
  deriving DecidableEq, Repr

/-- Modelled from the spec (§4.5): the `ConsistencySampler` contract is
`sample(shadow_network, initial_noise, sigma_sequence, condition_image,
clip_output)`; a conforming invocation supplies a conditioning image (the
conditional network's `forward(x, noise_level, v)` cannot run without
one). -/
def SamplerCall.suppliesConditionImage (c : SamplerCall) : Bool :=
  c.conditionImage.isSome

/-- The subset of `LitImprovedConsistencyModelConfig` the claims read. -/
structure LitICMConfig where
  ema_decay_rate : ℚ := 99993 / 100000
  sample_every_n_steps : ℕ := 10000
  num_samples : ℕ := 8
  sampling_sigmas : List (List ℚ) := [[80], [80, 661/1000], [80, 244/10, 584/100, 9/10, 661/1000]]
  deriving DecidableEq, Repr

/-- `LitImprovedConsistencyModelConfig()` defaults. -/
def defaultLitICMConfig : LitICMConfig := {}

/-- `num_samples = min(self.config.num_samples, batch.shape[0])`. -/
def monitoringNumSamples (config : LitICMConfig) (batchSize : ℕ) : ℕ :=
  min config.num_samples batchSize

/-- The ground-truth slice logged by `__sample_and_log_samples`:
`batch[:num_samples]`. -/
def groundTruthLogged (config : LitICMConfig) (batch : List ℕ) : List ℕ :=
  batch.take (monitoringNumSamples config batch.length)

/-- The sampler invocations issued by `__sample_and_log_samples` on a batch
of the given size: one per configured sigma sequence, each on the EMA
network, with noise shaped like `batch[:num_samples]`, `clip_denoised=True`,
`verbose=True`, and no conditioning image argument. -/
def sampleAndLogSamplesCalls (config : LitICMConfig) (batchSize : ℕ) : List SamplerCall :=
  config.sampling_sigmas.map fun sigmas =>
    { network := .emaModel
    , noiseBatch := monitoringNumSamples config batchSize
    , sigmas := sigmas
    , conditionImage := none
    , clip_denoised := true
    , verbose := true }

/-! ## `training_step` and its loss

`training_step` unpacks `(visible, infrared)`, calls the consistency
training objective (library code not under `src/`; per the spec it returns
the un-reduced predicted/target tensors, per-sample loss weights and the
discretization step count), and reduces
`(pseudo_huber_loss(output.predicted, output.target) *
output.loss_weights).mean()`.  `pseudo_huber_loss` itself is library code
and enters as an abstract elementwise function on values. -/

/-- Modelled from the spec (§4.3, `ConsistencyOutput`): the objective's
transient result — un-reduced predicted and target tensors, per-sample loss
weights, discretization step count. -/
structure ConsistencyTrainingOutput where
  predicted : List ℚ
  target : List ℚ
  loss_weights : List ℚ
  num_timesteps : ℕ
  deriving DecidableEq, Repr

/-- `Tensor.mean()` over a flattened tensor, in exact rational
arithmetic. -/
def listMean (xs : List ℚ) : ℚ :=
  xs.sum / xs.length

/-- The scalar loss computed by `training_step`:
`(pseudo_huber_loss(output.predicted, output.target) *
output.loss_weights).mean()`, with the elementwise `pseudo_huber_loss`
abstract (`ph`). -/
def trainingStepLoss (ph : ℚ → ℚ → ℚ) (output : ConsistencyTrainingOutput) : ℚ :=
  listMean (List.zipWith (· * ·) (List.zipWith ph output.predicted output.target)
    output.loss_weights)

/-- The spec's words for the same reduction, stated independently: apply the
pseudo-Huber loss to the i-th (predicted, target) pair, multiply by the i-th
per-sample weight, and take the mean over the batch of size `n`. -/
def specScalarLoss (ph : ℚ → ℚ → ℚ) (predicted target weights : List ℚ) (n : ℕ) : ℚ :=
  (∑ i ∈ Finset.range n,
    ph (predicted.getD i 0) (target.getD i 0) * weights.getD i 0) / n

/-! ## Helper lemmas -/

/-- Inserting one entry grows the sorted listing by one. -/
theorem insertEntry_length (a : ℕ × PILImage) (l : List (ℕ × PILImage)) :
    (insertEntry a l).length = l.length + 1 := by
  induction l with
  | nil => rfl
  | cons b bs ih =>
      unfold insertEntry
      split
      · simp
      · simp [ih]

/-- The sorted listing has as many entries as the directory. -/
theorem sortedEntries_length (d : ImageDir) :
    (sortedEntries d).length = d.entries.length := by
  unfold sortedEntries
  induction d.entries with
  | nil => rfl
  | cons a l ih => simp [insertEntry_length, ih]

/-! ## C10 — dataset length and index pairing -/

/-- C10: the paired dataset's length is the visible directory's file count
only; `__getitem__(i)` pairs the i-th entries of the two sorted listings
(returning them, or `None` on a size mismatch); and an index at or past the
infrared count (but within the advertised length) raises `IndexError`
instead of returning a pair. -/
theorem paired_dataset_len_pairing_and_overrun
    (visibleDir infraredDir : ImageDir) (i : ℕ) :
    (PairedDataset.ofDirs visibleDir infraredDir).len = visibleDir.entries.length ∧
    (∀ hv : i < (sortedEntries visibleDir).length,
      ∀ hir : i < (sortedEntries infraredDir).length,
        (PairedDataset.ofDirs visibleDir infraredDir).getitem i =
          (if ((sortedEntries visibleDir).get ⟨i, hv⟩).2.size ≠
              ((sortedEntries infraredDir).get ⟨i, hir⟩).2.size
            then .skippedNone
            else .pair ((sortedEntries visibleDir).get ⟨i, hv⟩).2
              ((sortedEntries infraredDir).get ⟨i, hir⟩).2)) ∧
    ((sortedEntries infraredDir).length ≤ i →
      i < (sortedEntries visibleDir).length →
      (PairedDataset.ofDirs visibleDir infraredDir).getitem i = .indexError) := by
  refine ⟨?_, ?_, ?_⟩
  · simp [PairedDataset.len, PairedDataset.ofDirs, sortedEntries_length]
  · intro hv hir
    simp only [PairedDataset.getitem, PairedDataset.ofDirs]
    rw [List.get?_eq_get hv, List.get?_eq_get hir]
  · intro hle hv
    simp only [PairedDataset.getitem, PairedDataset.ofDirs]
    rw [List.get?_eq_get hv, List.get?_eq_none.mpr hle]

/-- Witness for C10 at a concrete two-file visible directory and one-file
infrared directory: index 0 returns the pair of first sorted entries, index
1 overruns the infrared listing and raises. -/
theorem paired_dataset_len_pairing_and_overrun_witness :
    (PairedDataset.ofDirs
        ⟨[(2, ⟨(5, 5), 0⟩), (1, ⟨(4, 4), 1⟩)]⟩ ⟨[(3, ⟨(4, 4), 2⟩)]⟩).getitem 0
      = .pair ⟨(4, 4), 1⟩ ⟨(4, 4), 2⟩ ∧
    (PairedDataset.ofDirs
        ⟨[(2, ⟨(5, 5), 0⟩), (1, ⟨(4, 4), 1⟩)]⟩ ⟨[(3, ⟨(4, 4), 2⟩)]⟩).getitem 1
      = .indexError := by
  constructor
  · have h := (paired_dataset_len_pairing_and_overrun
      ⟨[(2, ⟨(5, 5), 0⟩), (1, ⟨(4, 4), 1⟩)]⟩ ⟨[(3, ⟨(4, 4), 2⟩)]⟩ 0).2.1
      (by decide) (by decide)
    rw [h]
    decide
  · exact (paired_dataset_len_pairing_and_overrun
      ⟨[(2, ⟨(5, 5), 0⟩), (1, ⟨(4, 4), 1⟩)]⟩ ⟨[(3, ⟨(4, 4), 2⟩)]⟩ 1).2.2
      (by decide) (by decide)

/-! ## C2 — a mismatched pair is skipped, but batching does not tolerate it

`__getitem__` does return `None` with a warning on a size mismatch, but
`train_dataloader` installs no `None`-filtering `collate_fn`, so the first
batch containing a skipped pair raises a `TypeError` in torch's default
collate instead of training continuing. -/

/-- C2 (failing evaluation): with a visible/infrared pair of different
resolutions at index 0, `__getitem__ 0` is skipped with a warning (`None`),
and the dataloader batch `[0]` ends in the default collate's `TypeError` —
not in a filtered batch. -/
theorem mismatched_pair_crashes_default_collate :
    (PairedDataset.ofDirs ⟨[(0, ⟨(1280, 1024), 0⟩)]⟩ ⟨[(0, ⟨(640, 512), 1⟩)]⟩).getitem 0
      = .skippedNone ∧
    trainDataloaderBatch
        (PairedDataset.ofDirs ⟨[(0, ⟨(1280, 1024), 0⟩)]⟩ ⟨[(0, ⟨(640, 512), 1⟩)]⟩) [0]
      = .collateTypeError := by
  constructor
  · decide
  · decide

/-! ## C7 — channel concatenation and projection widths -/

/-- C7: for every configuration the input projection is declared over
`2 * C` channels and the output projection emits exactly `C` channels; for
the default configuration the forward channel flow accepts exactly the
concatenations of total width `2 * C` (the noisy image and the condition
image, `C` channels each, concatenated before the input projection), and on
`C`-channel inputs it produces a `C`-channel output end to end. -/
theorem unet_concat_and_projection_widths :
    (∀ config : UNetConfig,
      (mkUNetArch config).input_projection_in_channels = 2 * config.channels ∧
      (mkUNetArch config).output_projection_out_channels = config.channels) ∧
    (∀ xChannels vChannels : ℕ,
      unetForwardChannels (mkUNetArch defaultUNetConfig) xChannels vChannels ≠ none →
      xChannels + vChannels = 2 * defaultUNetConfig.channels) ∧
    unetForwardChannels (mkUNetArch defaultUNetConfig) 3 3
      = some defaultUNetConfig.channels := by
  refine ⟨?_, ?_, by decide⟩
  · intro config
    exact ⟨by simp [mkUNetArch, Nat.mul_comm], rfl⟩
  · intro xChannels vChannels h
    unfold unetForwardChannels at h
    by_cases hc :
        (mkUNetArch defaultUNetConfig).input_projection_in_channels
          = xChannels + vChannels
    · have : (mkUNetArch defaultUNetConfig).input_projection_in_channels
          = 2 * defaultUNetConfig.channels := by decide
      omega
    · simp [hc] at h

/-- Witness for C7 at the only admissible widths: 3-channel noisy and
condition images concatenate to the 6-channel projection width. -/
theorem unet_concat_and_projection_widths_witness :
    3 + 3 = 2 * defaultUNetConfig.channels :=
  unet_concat_and_projection_widths.2.1 3 3 (by decide)

/-! ## C9 — monitoring sample count -/

/-- C9: the monitoring pass draws and logs exactly
`min(config.num_samples, batch_size)` samples: the ground-truth slice has
that length (never exceeding the batch), and every sampler call receives
noise of that batch shape. -/
theorem monitoring_sample_count (config : LitICMConfig) (batch : List ℕ) :
    monitoringNumSamples config batch.length = min config.num_samples batch.length ∧
    (groundTruthLogged config batch).length = min config.num_samples batch.length ∧
    (groundTruthLogged config batch).length ≤ batch.length ∧
    (sampleAndLogSamplesCalls config batch.length).map SamplerCall.noiseBatch
      = List.replicate config.sampling_sigmas.length
          (min config.num_samples batch.length) := by
  refine ⟨rfl, ?_, ?_, ?_⟩
  · simp only [groundTruthLogged, monitoringNumSamples, List.length_take]
    omega
  · simp only [groundTruthLogged, monitoringNumSamples, List.length_take]
    omega
  · unfold sampleAndLogSamplesCalls monitoringNumSamples
    induction config.sampling_sigmas with
    | nil => rfl
    | cons s rest ih => simp_all [List.replicate]

/-! ## C1 — monitoring sampler invocations and the missing condition image

`__sample_and_log_samples` is reached on the very first completed batch
(`global_step == 0` triggers the hook's sampling branch even under `main`'s
`sample_every_n_steps = 2100000`), and each invocation passes the EMA
network, the noise, a sigma sequence and `clip_denoised=True` — but NO
conditioning image, although the spec contract (and `UNet.forward`'s
mandatory third argument) requires one. -/

/-- C1 (failing evaluation): at the first monitoring trigger
(`global_step = 0`, batch size 4, default Lightning config), all three
sampler invocations read the EMA network with `clip_denoised=True`, yet none
supplies a conditioning image. -/
theorem monitoring_sampler_calls_lack_condition :
    TrainEvent.samplerInvocation ∈ trainBatchEvents 2100000 0 ∧
    (sampleAndLogSamplesCalls defaultLitICMConfig 4).length = 3 ∧
    (sampleAndLogSamplesCalls defaultLitICMConfig 4).map SamplerCall.network
      = [.emaModel, .emaModel, .emaModel] ∧
    (sampleAndLogSamplesCalls defaultLitICMConfig 4).map SamplerCall.clip_denoised
      = [true, true, true] ∧
    (sampleAndLogSamplesCalls defaultLitICMConfig 4).map
        SamplerCall.suppliesConditionImage
      = [false, false, false] := by
  refine ⟨by decide, rfl, rfl, rfl, rfl⟩

/-! ## C3 — EMA update strictly after the optimizer step, strictly before
monitoring sampling -/

/-- C3: in the per-batch event order, the optimizer step strictly precedes
the EMA update of the shadow network, and the EMA update strictly precedes
every sampler invocation of that batch. -/
theorem ema_update_after_optimizer_before_sampler
    (sample_every_n_steps global_step i j : ℕ)
    (hi : (trainBatchEvents sample_every_n_steps global_step).get? i
      = some .optimizerStep)
    (hj : (trainBatchEvents sample_every_n_steps global_step).get? j
      = some .emaUpdate) :
    i < j ∧ ∀ k, (trainBatchEvents sample_every_n_steps global_step).get? k
      = some .samplerInvocation → j < k := by
  unfold trainBatchEvents onTrainBatchEndEvents at hi hj ⊢
  by_cases hc : (global_step + 1) % sample_every_n_steps = 0 ∨ global_step = 0
  · rw [if_pos hc] at hi hj
    have hi' : i = 1 := by
      rcases i with _ | _ | _ | _ | i <;> simp [List.get?] at hi ⊢
    have hj' : j = 2 := by
      rcases j with _ | _ | _ | _ | j <;> simp [List.get?] at hj ⊢
    subst hi' hj'
    refine ⟨by omega, ?_⟩
    intro k hk
    rw [if_pos hc] at hk
    rcases k with _ | _ | _ | _ | k <;> simp [List.get?] at hk ⊢
  · rw [if_neg hc] at hi hj
    have hi' : i = 1 := by
      rcases i with _ | _ | _ | i <;> simp [List.get?] at hi ⊢
    have hj' : j = 2 := by
      rcases j with _ | _ | _ | j <;> simp [List.get?] at hj ⊢
    subst hi' hj'
    refine ⟨by omega, ?_⟩
    intro k hk
    rw [if_neg hc] at hk
    rcases k with _ | _ | _ | k <;> simp [List.get?] at hk ⊢

/-- Witness for C3 at the first completed batch under the default Lightning
config: the optimizer step sits at position 1, the EMA update at position 2,
the sampler invocation at position 3. -/
theorem ema_update_after_optimizer_before_sampler_witness :
    (1 : ℕ) < 2 ∧ (2 : ℕ) < 3 := by
  have h := ema_update_after_optimizer_before_sampler 10000 0 1 2
    (by decide) (by decide)
  exact ⟨h.1, h.2 3 (by decide)⟩

/-! ## C8 — the caller's loss reduction -/

/-- Sum of the elementwise product of a pseudo-Huber application and the
weights, as an indexed sum. -/
theorem zipWith_huber_weighted_sum (ph : ℚ → ℚ → ℚ) :
    ∀ (a b c : List ℚ), a.length = b.length → a.length = c.length →
      (List.zipWith (· * ·) (List.zipWith ph a b) c).sum
        = ∑ i ∈ Finset.range a.length,
            ph (a.getD i 0) (b.getD i 0) * c.getD i 0 := by
  intro a
  induction a with
  | nil =>
      intro b c _ _
      simp
  | cons x xs ih =>
      intro b c hb hc
      cases b with
      | nil => simp at hb
      | cons y ys =>
          cases c with
          | nil => simp at hc
          | cons z zs =>
              simp only [List.zipWith_cons_cons, List.sum_cons, List.length_cons]
              rw [Finset.sum_range_succ']
              simp only [List.getD_cons_succ, List.getD_cons_zero]
              rw [ih ys zs (by simpa using hb) (by simpa using hc)]
              ring

/-- C8: on an objective output whose predicted tensor, target tensor and
per-sample loss weights are un-reduced vectors of the batch length `n`, the
scalar loss computed by `training_step` equals the spec's reduction: the
mean over the batch of the pseudo-Huber loss of each (predicted, target)
pair multiplied by its per-sample weight. -/
theorem training_step_loss_matches_spec (ph : ℚ → ℚ → ℚ)
    (output : ConsistencyTrainingOutput) (n : ℕ)
    (hp : output.predicted.length = n)
    (ht : output.target.length = n)
    (hw : output.loss_weights.length = n) :
    trainingStepLoss ph output
      = specScalarLoss ph output.predicted output.target output.loss_weights n := by
  unfold trainingStepLoss specScalarLoss listMean
  rw [zipWith_huber_weighted_sum ph output.predicted output.target output.loss_weights
    (by omega) (by omega)]
  have hlen : (List.zipWith (· * ·)
      (List.zipWith ph output.predicted output.target) output.loss_weights).length = n := by
    simp [List.length_zipWith]
    omega
  rw [hlen, hp]

/-- Witness for C8 on a concrete batch of two samples. -/
theorem training_step_loss_matches_spec_witness :
    trainingStepLoss (fun a b => a - b)
        { predicted := [5, 3], target := [1, 1], loss_weights := [2, 4],
          num_timesteps := 10 }
      = specScalarLoss (fun a b => a - b) [5, 3] [1, 1] [2, 4] 2 :=
  training_step_loss_matches_spec (fun a b => a - b)
    { predicted := [5, 3], target := [1, 1], loss_weights := [2, 4],
      num_timesteps := 10 } 2 rfl rfl rfl

/-! ## C4 — the shadow network: frozen, loaded from the online state,
mutated only by the EMA update -/

/-- The shape inventory of a parameter list. -/
def modShapes (ps : List ModParam) : List Shape :=
  ps.map fun p => p.data.shape

/-- Freezing touches only the `requires_grad` flags. -/
theorem freezeParams_frozen (ps : List ModParam) :
    ∀ p ∈ freezeParams ps, p.requires_grad = false := by
  intro p hp
  simp only [freezeParams, List.mem_map] at hp
  obtain ⟨q, _, rfl⟩ := hp
  rfl

/-- The EMA in-place write keeps every `requires_grad` flag of the shadow. -/
theorem updateEmaModel_frozen (decay : ℚ) :
    ∀ (online shadow : List ModParam),
      (∀ p ∈ shadow, p.requires_grad = false) →
      ∀ p ∈ updateEmaModel decay online shadow, p.requires_grad = false := by
  intro online
  induction online with
  | nil =>
      intro shadow _ p hp
      simp [updateEmaModel] at hp
  | cons o os ih =>
      intro shadow hsh p hp
      cases shadow with
      | nil => simp [updateEmaModel] at hp
      | cons s ss =>
          simp only [updateEmaModel, List.zipWith_cons_cons, List.mem_cons] at hp
          rcases hp with rfl | hp
          · exact hsh s (by simp)
          · exact ih ss (fun q hq => hsh q (by simp [hq])) p hp

/-- The EMA in-place write keeps the shadow's shape inventory. -/
theorem updateEmaModel_shapes (decay : ℚ) :
    ∀ (online shadow : List ModParam), online.length = shadow.length →
      modShapes (updateEmaModel decay online shadow) = modShapes shadow := by
  intro online
  induction online with
  | nil =>
      intro shadow h
      cases shadow with
      | nil => rfl
      | cons s ss => simp at h
  | cons o os ih =>
      intro shadow h
      cases shadow with
      | nil => simp at h
      | cons s ss =>
          have h' : os.length = ss.length := by
            simp only [List.length_cons] at h
            omega
          show (updateEmaParam decay o.data s.data).shape
              :: modShapes (updateEmaModel decay os ss)
            = s.data.shape :: modShapes ss
          rw [ih ss h']
          rfl

/-- `load_state_dict` keeps the target's shape inventory. -/
theorem copyStateInto_shapes :
    ∀ (target source : List ModParam), source.length = target.length →
      modShapes (copyStateInto target source) = modShapes target := by
  intro target
  induction target with
  | nil =>
      intro source h
      cases source with
      | nil => rfl
      | cons s ss => simp at h
  | cons t ts ih =>
      intro source h
      cases source with
      | nil => simp at h
      | cons s ss =>
          have h' : ss.length = ts.length := by
            simp only [List.length_cons] at h
            omega
          show t.data.shape :: modShapes (copyStateInto ts ss)
            = t.data.shape :: modShapes ts
          rw [ih ss h']

/-- `load_state_dict` copies exactly the source's values. -/
theorem copyStateInto_values :
    ∀ (target source : List ModParam), target.length = source.length →
      (copyStateInto target source).map (fun p => p.data.value)
        = source.map (fun p => p.data.value) := by
  intro target
  induction target with
  | nil =>
      intro source h
      cases source with
      | nil => rfl
      | cons s ss => simp at h
  | cons t ts ih =>
      intro source h
      cases source with
      | nil => simp at h
      | cons s ss =>
          have h' : ts.length = ss.length := by
            simp only [List.length_cons] at h
            omega
          show s.data.value :: (copyStateInto ts ss).map (fun p => p.data.value)
            = s.data.value :: ss.map (fun p => p.data.value)
          rw [ih ss h']

/-- Freezing keeps shapes and values. -/
theorem freezeParams_shapes_values (ps : List ModParam) :
    modShapes (freezeParams ps) = modShapes ps ∧
    (freezeParams ps).map (fun p => p.data.value) = ps.map (fun p => p.data.value) := by
  constructor
  · induction ps with
    | nil => rfl
    | cons p rest ih =>
        show p.data.shape :: modShapes (freezeParams rest)
          = p.data.shape :: modShapes rest
        rw [ih]
  · induction ps with
    | nil => rfl
    | cons p rest ih =>
        show p.data.value :: (freezeParams rest).map (fun q => q.data.value)
          = p.data.value :: rest.map (fun q => q.data.value)
        rw [ih]

/-- One completed batch preserves both invariants: all-frozen shadow flags
and the structural identity of the two parameter sets. -/
theorem trainBatch_preserves_invariants (decay : ℚ)
    (u : List ModParam → List ModParam) (s : LitState)
    (hu : modShapes (u s.model) = modShapes s.model)
    (hfrozen : ∀ p ∈ s.ema_model, p.requires_grad = false)
    (hstruct : modShapes s.ema_model = modShapes s.model) :
    (∀ p ∈ (trainBatch decay u s).ema_model, p.requires_grad = false) ∧
    modShapes (trainBatch decay u s).ema_model
      = modShapes (trainBatch decay u s).model := by
  have hlen : (u s.model).length = s.ema_model.length := by
    have h1 := congrArg List.length hu
    have h2 := congrArg List.length hstruct
    simp only [modShapes, List.length_map] at h1 h2
    omega
  constructor
  · exact updateEmaModel_frozen decay (u s.model) s.ema_model hfrozen
  · show modShapes (updateEmaModel decay (u s.model) s.ema_model) = modShapes (u s.model)
    rw [updateEmaModel_shapes decay (u s.model) s.ema_model hlen, hstruct, hu]

/-- Both invariants hold after any number of completed batches. -/
theorem trainRun_preserves_invariants (decay : ℚ)
    (opt : ℕ → List ModParam → List ModParam)
    (hopt : ∀ k ps, modShapes (opt k ps) = modShapes ps) :
    ∀ (n : ℕ) (s : LitState),
      (∀ p ∈ s.ema_model, p.requires_grad = false) →
      modShapes s.ema_model = modShapes s.model →
      (∀ p ∈ (trainRun decay opt n s).ema_model, p.requires_grad = false) ∧
      modShapes (trainRun decay opt n s).ema_model
        = modShapes (trainRun decay opt n s).model := by
  intro n
  induction n with
  | zero => exact fun s hf hs => ⟨hf, hs⟩
  | succ n ih =>
      intro s hf hs
      have step := trainBatch_preserves_invariants decay (opt n) s (hopt n s.model) hf hs
      exact ih (trainBatch decay (opt n) s) step.1 step.2

/-- C4: starting from `run_training`'s setup (shadow structurally identical
to the online network, `load_state_dict` from the online state, then frozen
by the Lightning module's constructor), after any number of completed
batches (with any optimizer writes that keep the online inventory): every
shadow parameter still has `requires_grad = false`; shadow and online
inventories are still structurally identical; the shadow's initial values
are exactly the online network's; and each batch's only shadow mutation is
the EMA update applied to the post-optimizer online network. -/
theorem shadow_frozen_loaded_and_ema_only
    (decay : ℚ) (opt : ℕ → List ModParam → List ModParam)
    (onlineInit emaInit : List ModParam) (n : ℕ)
    (hshape : modShapes emaInit = modShapes onlineInit)
    (hopt : ∀ k ps, modShapes (opt k ps) = modShapes ps) :
    (∀ p ∈ (trainRun decay opt n (runTrainingSetup onlineInit emaInit)).ema_model,
      p.requires_grad = false) ∧
    modShapes (trainRun decay opt n (runTrainingSetup onlineInit emaInit)).ema_model
      = modShapes (trainRun decay opt n (runTrainingSetup onlineInit emaInit)).model ∧
    (runTrainingSetup onlineInit emaInit).ema_model.map (fun p => p.data.value)
      = onlineInit.map (fun p => p.data.value) ∧
    (∀ u st, (trainBatch decay u st).model = u st.model ∧
      (trainBatch decay u st).ema_model
        = updateEmaModel decay ((trainBatch decay u st).model) st.ema_model) := by
  have hlen : emaInit.length = onlineInit.length := by
    have h := congrArg List.length hshape
    simp only [modShapes, List.length_map] at h
    exact h
  have hsetupF : ∀ p ∈ (runTrainingSetup onlineInit emaInit).ema_model,
      p.requires_grad = false :=
    freezeParams_frozen _
  have hsetupS : modShapes (runTrainingSetup onlineInit emaInit).ema_model
      = modShapes (runTrainingSetup onlineInit emaInit).model := by
    show modShapes (freezeParams (copyStateInto emaInit onlineInit)) = modShapes onlineInit
    rw [(freezeParams_shapes_values _).1,
      copyStateInto_shapes emaInit onlineInit hlen.symm, hshape]
  have hrun := trainRun_preserves_invariants decay opt hopt n _ hsetupF hsetupS
  refine ⟨hrun.1, hrun.2, ?_, fun u st => ⟨rfl, rfl⟩⟩
  show (freezeParams (copyStateInto emaInit onlineInit)).map (fun p => p.data.value)
    = onlineInit.map (fun p => p.data.value)
  rw [(freezeParams_shapes_values _).2, copyStateInto_values emaInit onlineInit hlen]

/-- Witness for C4 on a concrete one-parameter pair of networks, two
completed batches, identity optimizer writes. -/
theorem shadow_frozen_loaded_and_ema_only_witness :
    modShapes (trainRun (1/2) (fun _ ps => ps) 2
        (runTrainingSetup [⟨⟨[2], [1, 2]⟩, true⟩] [⟨⟨[2], [5, 7]⟩, true⟩])).ema_model
      = modShapes (trainRun (1/2) (fun _ ps => ps) 2
        (runTrainingSetup [⟨⟨[2], [1, 2]⟩, true⟩] [⟨⟨[2], [5, 7]⟩, true⟩])).model ∧
    (runTrainingSetup [⟨⟨[2], [1, 2]⟩, true⟩] [⟨⟨[2], [5, 7]⟩, true⟩]).ema_model.map
        (fun p => p.data.value)
      = ([⟨⟨[2], [1, 2]⟩, true⟩] : List ModParam).map (fun p => p.data.value) := by
  have h := shadow_frozen_loaded_and_ema_only (1/2) (fun _ ps => ps)
    [⟨⟨[2], [1, 2]⟩, true⟩] [⟨⟨[2], [5, 7]⟩, true⟩] 2 rfl (fun _ _ => rfl)
  exact ⟨h.2.1, h.2.2.1⟩

/-! ## C5 / C6 — checkpoint round-trip and shape-mismatch failure -/

/-- A freshly constructed `UNet(config)` carries exactly the shape inventory
of its configuration. -/
theorem ofConfig_shapes (config : UNetConfig) :
    (UNet.ofConfig config).state_dict.map TensorData.shape = unetParamShapes config := by
  show ((unetParamShapes config).map initTensor).map TensorData.shape
    = unetParamShapes config
  induction unetParamShapes config with
  | nil => rfl
  | cons s rest ih =>
      show s :: (rest.map initTensor).map TensorData.shape = s :: rest
      rw [ih]

/-- Strict loading succeeds exactly on an agreeing shape inventory, and then
installs the stored values. -/
theorem loadStateDict_ok_of_shapes_eq :
    ∀ target source : List TensorData,
      target.map TensorData.shape = source.map TensorData.shape →
      loadStateDict target source = .ok source := by
  intro target
  induction target with
  | nil =>
      intro source h
      cases source with
      | nil => rfl
      | cons s ss => simp at h
  | cons t ts ih =>
      intro source h
      cases source with
      | nil => simp at h
      | cons s ss =>
          simp only [List.map_cons, List.cons.injEq] at h
          simp only [loadStateDict, if_pos h.1, ih ss h.2, Except.map]

/-- What a successful strict load means: the result is the stored state
dict, and the model's and the stored shape inventories agree. -/
theorem loadStateDict_ok_imp :
    ∀ target source result : List TensorData,
      loadStateDict target source = .ok result →
      result = source ∧ target.map TensorData.shape = source.map TensorData.shape := by
  intro target
  induction target with
  | nil =>
      intro source result h
      cases source with
      | nil =>
          simp only [loadStateDict] at h
          cases h
          exact ⟨rfl, rfl⟩
      | cons s ss => simp [loadStateDict] at h
  | cons t ts ih =>
      intro source result h
      cases source with
      | nil => simp [loadStateDict] at h
      | cons s ss =>
          simp only [loadStateDict] at h
          by_cases hsh : t.shape = s.shape
          · rw [if_pos hsh] at h
            rcases hload : loadStateDict ts ss with e | r
            · rw [hload] at h
              simp [Except.map] at h
            · rw [hload] at h
              simp only [Except.map] at h
              cases h
              obtain ⟨hr, hmap⟩ := ih ss r hload
              subst hr
              simp [hsh, hmap]
          · rw [if_neg hsh] at h
            cases h

/-- C5: saving a well-formed network and loading the saved checkpoint
returns exactly the original network — the architecture rebuilt from the
saved configuration, the identical parameter values, and hence an identical
forward channel flow on every (noisy image, condition image) width pair. -/
theorem save_load_roundtrip (m : UNet) (h : m.wf) :
    UNet.from_pretrained m.save_pretrained = .ok m ∧
    ∀ m2, UNet.from_pretrained m.save_pretrained = .ok m2 →
      m2.config = m.config ∧ m2.state_dict = m.state_dict ∧
      ∀ xChannels vChannels,
        unetForwardChannels (mkUNetArch m2.config) xChannels vChannels
          = unetForwardChannels (mkUNetArch m.config) xChannels vChannels := by
  have hload : loadStateDict (UNet.ofConfig m.config).state_dict m.state_dict
      = .ok m.state_dict :=
    loadStateDict_ok_of_shapes_eq _ _ (by rw [ofConfig_shapes]; exact h.symm)
  have h1 : UNet.from_pretrained m.save_pretrained = .ok m := by
    show (loadStateDict (UNet.ofConfig m.config).state_dict m.state_dict).map
        (fun sd => { config := m.config, state_dict := sd }) = .ok m
    rw [hload]
    rfl
  refine ⟨h1, ?_⟩
  intro m2 hm2
  rw [h1] at hm2
  cases hm2
  exact ⟨rfl, rfl, fun _ _ => rfl⟩

/-- A small configuration used by concrete witnesses. -/
def smallUNetConfig : UNetConfig where
  channels := 1
  noise_level_channels := 4
  n_heads := 1
  top_blocks_channels := [8]
  top_blocks_n_blocks_per_resolution := [1]
  top_blocks_has_resampling := [false]
  top_blocks_dropout := [0]
  mid_blocks_channels := [8]
  mid_blocks_n_blocks_per_resolution := [1]
  mid_blocks_has_resampling := [false]
  mid_blocks_dropout := [0]

/-- Witness for C5: round-trip of a concrete small network. -/
theorem save_load_roundtrip_witness :
    UNet.from_pretrained (UNet.ofConfig smallUNetConfig).save_pretrained
      = .ok (UNet.ofConfig smallUNetConfig) :=
  (save_load_roundtrip (UNet.ofConfig smallUNetConfig)
    (ofConfig_shapes smallUNetConfig)).1

/-- C6: loading builds the architecture from the saved configuration, then
loads values; any shape disagreement between a stored parameter and its
freshly constructed counterpart makes `from_pretrained` fail with the shape
mismatch error (so no network is returned there); and when loading does
succeed, the returned network's configuration and shape inventory come from
the saved configuration alone. -/
theorem from_pretrained_rebuilds_then_fails_on_shape_mismatch
    (ck : Checkpoint) (i : ℕ) (stored fresh : TensorData)
    (hstored : ck.modelPt.get? i = some stored)
    (hfresh : (UNet.ofConfig ck.configJson).state_dict.get? i = some fresh)
    (hne : stored.shape ≠ fresh.shape) :
    UNet.from_pretrained ck = .error .shapeMismatch ∧
    ∀ (ck2 : Checkpoint) (m : UNet), UNet.from_pretrained ck2 = .ok m →
      m.config = ck2.configJson ∧
      m.state_dict.map TensorData.shape = unetParamShapes ck2.configJson ∧
      m.state_dict = ck2.modelPt := by
  constructor
  · show (loadStateDict (UNet.ofConfig ck.configJson).state_dict ck.modelPt).map
        (fun sd => ({ config := ck.configJson, state_dict := sd } : UNet))
      = .error .shapeMismatch
    rcases hres : loadStateDict (UNet.ofConfig ck.configJson).state_dict ck.modelPt
      with e | r
    · cases e
      rfl
    · exfalso
      have hok := loadStateDict_ok_imp _ _ _ hres
      have hget := congrArg (fun l => l.get? i) hok.2
      simp only [List.get?_map, hstored, hfresh, Option.map_some] at hget
      exact hne (by injection hget with hg; exact hg.symm)
  · intro ck2 m hm
    have hm' : (loadStateDict (UNet.ofConfig ck2.configJson).state_dict ck2.modelPt).map
        (fun sd => ({ config := ck2.configJson, state_dict := sd } : UNet)) = .ok m := hm
    rcases hres : loadStateDict (UNet.ofConfig ck2.configJson).state_dict ck2.modelPt
      with e | r
    · rw [hres] at hm'
      cases hm'
    · rw [hres] at hm'
      cases hm'
      obtain ⟨hr, hmap⟩ := loadStateDict_ok_imp _ _ _ hres
      subst hr
      refine ⟨rfl, ?_, rfl⟩
      rw [← hmap, ofConfig_shapes]

/-- The concrete mismatching checkpoint used by the C6 witness: the small
configuration with a single stored tensor of the wrong shape. -/
def mismatchedCheckpoint : Checkpoint :=
  { configJson := smallUNetConfig, modelPt := [⟨[1], [0]⟩] }

/-- Witness for C6: the mismatching checkpoint is rejected with the shape
mismatch error. -/
theorem from_pretrained_shape_mismatch_witness :
    UNet.from_pretrained mismatchedCheckpoint = .error .shapeMismatch :=
  (from_pretrained_rebuilds_then_fails_on_shape_mismatch mismatchedCheckpoint 0
    ⟨[1], [0]⟩ (initTensor [8, 2, 3, 3]) rfl rfl (by decide)).1
